import Mathlib

/-!
Verification of the signal monitoring engine (app.py): trade lifecycle state
machine, P&L arithmetic, symbol normalization, fetch retry policy, monitor
cycle and snapshot API, shallowly embedded in Lean.

Prices and money amounts are modelled as rationals; clock readings as
naturals; the two shared dictionaries (live_table, trade_state) as
association lists over String keys, matching Python dict insert-or-replace
semantics.
-/

/-- Trade lifecycle status, the values stored in trade_state["status"]. -/
inductive Status where
  | PENDING : Status
  | ENTERED : Status
  | EXITED_TARGET : Status
  | EXITED_SL : Status
  deriving DecidableEq

/-- Python's state["status"].startswith("EXITED"). -/
def Status.isExited : Status → Bool
  | .EXITED_TARGET => true
  | .EXITED_SL => true
  | _ => false

/-- Number of transitions taken from PENDING along the lifecycle chain. -/
def Status.rank : Status → Nat
  | .PENDING => 0
  | .ENTERED => 1
  | .EXITED_TARGET => 2
  | .EXITED_SL => 2

/-- The forward order of the lifecycle: PENDING before ENTERED before either
terminal state; the two terminal states are incomparable. -/
def statusLe (a b : Status) : Bool :=
  match a, b with
  | .PENDING, _ => true
  | .ENTERED, .ENTERED => true
  | .ENTERED, .EXITED_TARGET => true
  | .ENTERED, .EXITED_SL => true
  | .EXITED_TARGET, .EXITED_TARGET => true
  | .EXITED_SL, .EXITED_SL => true
  | _, _ => false

/-- The per-symbol mutable state dict created in process_symbol. -/
structure TradeState where
  status : Status
  entry_time : Option Nat
  exit_time : Option Nat
  exit_price : Option ℚ
  deriving DecidableEq

/-- The default dict used by trade_state.get(symbol, {...}). -/
def initState : TradeState :=
  { status := .PENDING, entry_time := none, exit_time := none, exit_price := none }

/-- One buy signal as read from the daily document. -/
structure Signal where
  symbol : String
  entry : ℚ
  target : ℚ
  stoploss : ℚ
  qty : ℚ
  deriving DecidableEq

/-- CAPITAL-margin divisor, MARGIN = 5 in the config block. -/
def MARGIN : ℚ := 5

/-- MAX_RETRIES = 3 in the config block. -/
def MAX_RETRIES : Nat := 3

/-- The 0.4 second sleep between fetch attempts, in milliseconds. -/
def BACKOFF_MS : Nat := 400

/-- Round half to even at integer precision, the rounding Python's round()
applies; the fractional part r/d against one half decides which neighbour is
taken, computed on the numerator and denominator directly. -/
def roundHalfEvenInt (q : ℚ) : ℤ :=
  let n := q.num
  let d : ℤ := (q.den : ℤ)
  let f := Int.ediv n d
  let r := n - f * d
  if 2 * r < d then f
  else if d < 2 * r then f + 1
  else if f % 2 = 0 then f else f + 1

/-- Python's round(x, 2). -/
def round2 (q : ℚ) : ℚ := (roundHalfEvenInt (q * 100) : ℚ) / 100

/-- Does pat (nonempty, head p) start the list l? -/
def leadMatch : List Char → List Char → Bool
  | [], _ => true
  | _ :: _, [] => false
  | p :: ps, c :: rest => p = c && leadMatch ps rest

/-- One pass of Python str.replace(pat, "") with pat = p :: ps, fuelled by the
length of the scanned list so that it reduces definitionally. -/
def stripTokFuel (p : Char) (ps : List Char) : Nat → List Char → List Char
  | 0, l => l
  | _ + 1, [] => []
  | n + 1, c :: rest =>
    if leadMatch (p :: ps) (c :: rest) then stripTokFuel p ps n (List.drop ps.length rest)
    else c :: stripTokFuel p ps n rest

/-- Python str.replace(pat, "") for the nonempty pattern p :: ps. -/
def stripTok (p : Char) (ps : List Char) (l : List Char) : List Char :=
  stripTokFuel p ps l.length l

/-- Does the pattern p :: ps occur anywhere in the list? -/
def hasTok (p : Char) (ps : List Char) : List Char → Bool
  | [] => false
  | c :: rest => leadMatch (p :: ps) (c :: rest) || hasTok p ps rest

/-- Python str.strip(): drop whitespace at both ends. -/
def stripWs (l : List Char) : List Char :=
  ((l.dropWhile Char.isWhitespace).reverse.dropWhile Char.isWhitespace).reverse

/-- ASCII uppercasing of one character, Python str.upper() per character. -/
def upChar (c : Char) : Char :=
  if 'a' ≤ c ∧ c ≤ 'z' then Char.ofNat (c.toNat - 32) else c

/-- normalize_symbol: strip "NSE:", ".NS", "-EQ", surrounding whitespace, then
uppercase, in the order of the source. -/
def normalize_symbol (s : String) : String :=
  ⟨(stripWs (stripTok '-' ['E', 'Q']
      (stripTok '.' ['N', 'S']
        (stripTok 'N' ['S', 'E', ':'] s.data)))).map upChar⟩

/-- Fully-normalized form: no token occurrence, no surrounding whitespace, no
character changed by uppercasing. -/
def isNormal (s : String) : Bool :=
  !hasTok 'N' ['S', 'E', ':'] s.data
  && !hasTok '.' ['N', 'S'] s.data
  && !hasTok '-' ['E', 'Q'] s.data
  && decide (stripWs s.data = s.data)
  && decide (s.data.map upChar = s.data)

/-- Association-list lookup with Python dict key equality. -/
def getKey {α : Type} (k : String) : List (String × α) → Option α
  | [] => none
  | (k', v) :: rest => if k' = k then some v else getKey k rest

/-- Association-list insert-or-replace, Python dict assignment d[k] = v. -/
def setKey {α : Type} (k : String) (v : α) : List (String × α) → List (String × α)
  | [] => [(k, v)]
  | (k', v') :: rest => if k' = k then (k, v) :: rest else (k', v') :: setKey k v rest

/-- The dict returned by process_symbol and stored in live_table. -/
structure Record where
  symbol : String
  entry : ℚ
  ltp : ℚ
  status : Status
  entry_time : Option Nat
  exit_price : Option ℚ
  exit_time : Option Nat
  one_share_value : ℚ
  qty : ℚ
  capital_used : ℚ
  margin_required : ℚ
  pnl_pct : ℚ
  pnl_capital : ℚ
  pnl_margin : ℚ
  updated_at : Nat
  deriving DecidableEq

/-- The guarded transition block of process_symbol (lines 193-210): an
if/elif chain, so exactly one arm fires. -/
def transition (st : TradeState) (ltp entry target stoploss : ℚ) (now : Nat) : TradeState :=
  if st.status = .PENDING ∧ ltp ≥ entry then
    { st with status := .ENTERED, entry_time := some now }
  else if st.status = .ENTERED ∧ ltp ≥ target then
    { st with status := .EXITED_TARGET, exit_time := some now, exit_price := some target }
  else if st.status = .ENTERED ∧ ltp ≤ stoploss then
    { st with status := .EXITED_SL, exit_time := some now, exit_price := some stoploss }
  else st

/-- Fold of the transition over a sequence of (price, clock) observations. -/
def applyObs (st : TradeState) (entry target stoploss : ℚ) (obs : List (ℚ × Nat)) : TradeState :=
  obs.foldl (fun s pn => transition s pn.1 entry target stoploss pn.2) st

/-- The record literal built at the end of process_symbol. In the source an
exited state always carries a set exit_price, so the getD default is never
reached there. -/
def mkRecord (sig : Signal) (symbol : String) (ltp : ℚ) (state : TradeState)
    (now : Nat) : Record :=
  let effective_price : ℚ :=
    if state.status.isExited then state.exit_price.getD ltp else ltp
  let pnl_per_share := round2 (effective_price - sig.entry)
  let pnl_pct := round2 (pnl_per_share / sig.entry * 100)
  let capital_used := round2 (sig.entry * sig.qty)
  let pnl_capital := round2 (pnl_per_share * sig.qty)
  { symbol := symbol
    entry := sig.entry
    ltp := ltp
    status := state.status
    entry_time := state.entry_time
    exit_price := state.exit_price
    exit_time := state.exit_time
    one_share_value := sig.entry
    qty := sig.qty
    capital_used := capital_used
    margin_required := round2 (capital_used / MARGIN)
    pnl_pct := pnl_pct
    pnl_capital := pnl_capital
    pnl_margin := pnl_capital
    updated_at := now }

/-- process_symbol: normalize the symbol, fetch, and on success run the
transition, store the new state into trade_state, and build the record; on
fetch failure return with trade_state untouched and no record. -/
def processSymbol (fetch : String → Option ℚ) (now : Nat)
    (ts : List (String × TradeState)) (sig : Signal) :
    List (String × TradeState) × Option Record :=
  let symbol := normalize_symbol sig.symbol
  match fetch symbol with
  | none => (ts, none)
  | some ltp =>
    let state := transition ((getKey symbol ts).getD initState)
      ltp sig.entry sig.target sig.stoploss now
    (setKey symbol state ts, some (mkRecord sig symbol ltp state now))

/-- The two shared dictionaries. -/
structure Tables where
  live_table : List (String × Record)
  trade_state : List (String × TradeState)
  deriving DecidableEq

/-- clear_live_data: clear both dictionaries. -/
def clear_live_data (_t : Tables) : Tables := { live_table := [], trade_state := [] }

/-- One completed unit of work in the monitor cycle: run process_symbol and,
when it yields a record, upsert it into live_table under its symbol key. -/
def stepSignal (fetch : String → Option ℚ) (now : Nat) (t : Tables) (sig : Signal) : Tables :=
  let out := processSymbol fetch now t.trade_state sig
  match out.2 with
  | none => { t with trade_state := out.1 }
  | some rec => { live_table := setKey rec.symbol rec t.live_table, trade_state := out.1 }

/-- Fan-out over all signals of a cycle. Each unit touches only its own
normalized-symbol key under the lock, so the serialization is faithful. -/
def runSignals (fetch : String → Option ℚ) (now : Nat) (t : Tables)
    (sigs : List Signal) : Tables :=
  sigs.foldl (stepSignal fetch now) t

/-- One iteration of the monitor_worker loop body: clear everything when the
market is closed or no signals exist, otherwise process every signal. -/
def monitorCycle (marketOpen : Bool) (sigs : List Signal)
    (fetch : String → Option ℚ) (now : Nat) (t : Tables) : Tables :=
  if marketOpen then
    if sigs.isEmpty then clear_live_data t
    else runSignals fetch now t sigs
  else clear_live_data t

/-- The four shapes of /api/monitor responses. -/
inductive ApiResponse where
  | marketClosed : ApiResponse
  | noSignals : ApiResponse
  | waitingForPrices : ApiResponse
  | table : List Record → ApiResponse
  deriving DecidableEq

/-- api_monitor: note the handler itself clears both tables when the market
is closed or the signals document is absent. -/
def api_monitor (marketOpen signalsPresent : Bool) (t : Tables) : Tables × ApiResponse :=
  if marketOpen = false then (clear_live_data t, .marketClosed)
  else if signalsPresent = false then (clear_live_data t, .noSignals)
  else if t.live_table = [] then (t, .waitingForPrices)
  else (t, .table (t.live_table.map Prod.snd))

/-- Outcome of one HTTP attempt inside fetch_ltp_with_retry: a timeout, an
HTTP error status, any other raised error, or a parsed candle list carrying
each candle's close value (index 4, possibly null). -/
inductive AttemptResult where
  | timeout : AttemptResult
  | httpError : AttemptResult
  | otherError : AttemptResult
  | ok : List (Option ℚ) → AttemptResult
  deriving DecidableEq

/-- The retry loop of fetch_ltp_with_retry, fuelled by the remaining attempt
count; returns (price?, attempts made, total backoff slept in ms). Timeouts
and unexpected errors sleep 0.4s and retry; an HTTP error, an empty candle
list, and a null or non-positive close all return failure at once. -/
def fetchGo (oracle : Nat → AttemptResult) : Nat → Nat → Nat → Option ℚ × Nat × Nat
  | 0, _, sleeps => (none, MAX_RETRIES, sleeps)
  | fuel + 1, attempt, sleeps =>
    match oracle attempt with
    | .timeout => fetchGo oracle fuel (attempt + 1) (sleeps + BACKOFF_MS)
    | .otherError => fetchGo oracle fuel (attempt + 1) (sleeps + BACKOFF_MS)
    | .httpError => (none, attempt, sleeps)
    | .ok candles =>
      match candles.getLast? with
      | none => (none, attempt, sleeps)
      | some none => (none, attempt, sleeps)
      | some (some ltp) =>
        if ltp ≤ 0 then (none, attempt, sleeps) else (some (round2 ltp), attempt, sleeps)

/-- fetch_ltp_with_retry, abstracted over the per-attempt network outcome. -/
def fetch_ltp_with_retry (oracle : Nat → AttemptResult) : Option ℚ × Nat × Nat :=
  fetchGo oracle MAX_RETRIES 1 0

/-- A sample signal used in concrete instantiations. -/
def sampleSignal : Signal :=
  { symbol := "TCS", entry := 100, target := 110, stoploss := 90, qty := 10 }

/-- A sample entered trade state used in concrete instantiations. -/
def sampleEnteredState : TradeState :=
  { status := .ENTERED, entry_time := some 1, exit_time := none, exit_price := none }

/-- A sample exited trade state used in concrete instantiations. -/
def sampleExitedState : TradeState :=
  { status := .EXITED_TARGET, entry_time := some 1, exit_time := some 2, exit_price := some 110 }

/-- A sample snapshot record used in concrete instantiations. -/
def sampleRecord : Record :=
  mkRecord { symbol := "TCS", entry := 100, target := 110, stoploss := 90, qty := 10 }
    "TCS" 115 sampleExitedState 3

/-- The signal of the spec's P&L example: entry 100, quantity 50, with a
target that keeps the state ENTERED at price 110. -/
def c7Signal : Signal :=
  { symbol := "TCS", entry := 100, target := 120, stoploss := 90, qty := 50 }

/-- The record the P&L example must publish. -/
def c7ExpectedRecord : Record :=
  { symbol := "TCS", entry := 100, ltp := 110, status := .ENTERED,
    entry_time := some 1, exit_price := none, exit_time := none,
    one_share_value := 100, qty := 50, capital_used := 5000,
    margin_required := 1000, pnl_pct := 10, pnl_capital := 500,
    pnl_margin := 500, updated_at := 5 }

set_option maxRecDepth 10000 in
example : round2 (10 : ℚ) = 10 := by with_unfolding_all decide

example : normalize_symbol "nse:tcs" = "NSE:TCS" := by decide

example : normalize_symbol "NSE:TCS" = "TCS" := by decide

theorem getKey_setKey_self {α : Type} (k : String) (v : α) (t : List (String × α)) :
    getKey k (setKey k v t) = some v := by
  induction t with
  | nil => simp [setKey, getKey]
  | cons hd rest ih =>
    obtain ⟨k', v'⟩ := hd
    by_cases h : k' = k
    · simp [setKey, h, getKey]
    · simp [setKey, h, getKey, ih]

theorem getKey_setKey_ne {α : Type} (k k' : String) (v : α) (t : List (String × α))
    (h : k ≠ k') : getKey k' (setKey k v t) = getKey k' t := by
  induction t with
  | nil => simp [setKey, getKey, h]
  | cons hd rest ih =>
    obtain ⟨a, b⟩ := hd
    by_cases ha : a = k
    · subst ha
      simp [setKey, getKey, h]
    · simp [setKey, ha, getKey, ih]

theorem statusLe_refl (a : Status) : statusLe a a = true := by
  cases a <;> rfl

theorem statusLe_trans (a b c : Status) (hab : statusLe a b = true)
    (hbc : statusLe b c = true) : statusLe a c = true := by
  cases a <;> cases b <;> cases c <;> simp_all [statusLe]

theorem transition_status_mono (st : TradeState) (ltp entry target stoploss : ℚ)
    (now : Nat) : statusLe st.status (transition st ltp entry target stoploss now).status = true := by
  unfold transition
  split_ifs with h1 h2 h3
  · rw [h1.1]; rfl
  · rw [h2.1]; rfl
  · rw [h3.1]; rfl
  · exact statusLe_refl _

theorem transition_exited (st : TradeState) (ltp entry target stoploss : ℚ) (now : Nat)
    (h : st.status.isExited = true) : transition st ltp entry target stoploss now = st := by
  obtain ⟨s, et, xt, xp⟩ := st
  cases s <;> simp_all [Status.isExited, transition]

theorem applyObs_cons (st : TradeState) (entry target stoploss : ℚ) (p : ℚ × Nat)
    (rest : List (ℚ × Nat)) :
    applyObs st entry target stoploss (p :: rest)
      = applyObs (transition st p.1 entry target stoploss p.2) entry target stoploss rest := rfl

theorem applyObs_status_mono (entry target stoploss : ℚ) (obs : List (ℚ × Nat)) :
    ∀ st : TradeState, statusLe st.status (applyObs st entry target stoploss obs).status = true := by
  induction obs with
  | nil => intro st; exact statusLe_refl _
  | cons p rest ih =>
    intro st
    rw [applyObs_cons]
    exact statusLe_trans _ _ _ (transition_status_mono st p.1 entry target stoploss p.2)
      (ih (transition st p.1 entry target stoploss p.2))

theorem applyObs_exited (st : TradeState) (entry target stoploss : ℚ)
    (obs : List (ℚ × Nat)) (h : st.status.isExited = true) :
    applyObs st entry target stoploss obs = st := by
  induction obs with
  | nil => rfl
  | cons p rest ih =>
    rw [applyObs_cons, transition_exited st p.1 entry target stoploss p.2 h]
    exact ih

theorem mkRecord_symbol (sig : Signal) (symbol : String) (ltp : ℚ) (state : TradeState)
    (now : Nat) : (mkRecord sig symbol ltp state now).symbol = symbol := rfl

theorem processSymbol_of_fetch_none (fetch : String → Option ℚ) (now : Nat)
    (ts : List (String × TradeState)) (sig : Signal)
    (h : fetch (normalize_symbol sig.symbol) = none) :
    processSymbol fetch now ts sig = (ts, none) := by
  simp [processSymbol, h]

theorem processSymbol_of_fetch_some (fetch : String → Option ℚ) (now : Nat)
    (ts : List (String × TradeState)) (sig : Signal) (ltp : ℚ)
    (h : fetch (normalize_symbol sig.symbol) = some ltp) :
    processSymbol fetch now ts sig =
      (setKey (normalize_symbol sig.symbol)
        (transition ((getKey (normalize_symbol sig.symbol) ts).getD initState)
          ltp sig.entry sig.target sig.stoploss now) ts,
       some (mkRecord sig (normalize_symbol sig.symbol) ltp
        (transition ((getKey (normalize_symbol sig.symbol) ts).getD initState)
          ltp sig.entry sig.target sig.stoploss now) now)) := by
  simp [processSymbol, h]

theorem stepSignal_getKey_ne (fetch : String → Option ℚ) (now : Nat) (t : Tables)
    (sig : Signal) (k : String) (h : normalize_symbol sig.symbol ≠ k) :
    getKey k (stepSignal fetch now t sig).live_table = getKey k t.live_table
    ∧ getKey k (stepSignal fetch now t sig).trade_state = getKey k t.trade_state := by
  cases hf : fetch (normalize_symbol sig.symbol) with
  | none =>
    rw [stepSignal, processSymbol_of_fetch_none fetch now t.trade_state sig hf]
    exact ⟨rfl, rfl⟩
  | some ltp =>
    rw [stepSignal, processSymbol_of_fetch_some fetch now t.trade_state sig ltp hf]
    exact ⟨getKey_setKey_ne _ _ _ _ h, getKey_setKey_ne _ _ _ _ h⟩

theorem runSignals_getKey_ne (fetch : String → Option ℚ) (now : Nat) (k : String) :
    ∀ (sigs : List Signal) (t : Tables),
      (∀ sig ∈ sigs, normalize_symbol sig.symbol ≠ k) →
      getKey k (runSignals fetch now t sigs).live_table = getKey k t.live_table
      ∧ getKey k (runSignals fetch now t sigs).trade_state = getKey k t.trade_state := by
  intro sigs
  induction sigs with
  | nil => intro t _; exact ⟨rfl, rfl⟩
  | cons hd rest ih =>
    intro t h
    have hstep := stepSignal_getKey_ne fetch now t hd k (h hd (by simp))
    have hrest := ih (stepSignal fetch now t hd) (fun sig hs => h sig (by simp [hs]))
    exact ⟨hrest.1.trans hstep.1, hrest.2.trans hstep.2⟩

theorem processSymbol_snd_congr (fetch : String → Option ℚ) (now : Nat)
    (ts ts' : List (String × TradeState)) (sig : Signal)
    (h : getKey (normalize_symbol sig.symbol) ts = getKey (normalize_symbol sig.symbol) ts') :
    (processSymbol fetch now ts sig).2 = (processSymbol fetch now ts' sig).2 := by
  cases hf : fetch (normalize_symbol sig.symbol) with
  | none =>
    rw [processSymbol_of_fetch_none fetch now ts sig hf,
      processSymbol_of_fetch_none fetch now ts' sig hf]
  | some ltp =>
    rw [processSymbol_of_fetch_some fetch now ts sig ltp hf,
      processSymbol_of_fetch_some fetch now ts' sig ltp hf, h]

theorem stripTokFuel_of_not_hasTok (p : Char) (ps : List Char) :
    ∀ (n : Nat) (l : List Char), hasTok p ps l = false → stripTokFuel p ps n l = l := by
  intro n
  induction n with
  | zero => intro l _; rfl
  | succ n ih =>
    intro l h
    cases l with
    | nil => rfl
    | cons c rest =>
      simp only [hasTok, Bool.or_eq_false_iff] at h
      simp [stripTokFuel, h.1, ih rest h.2]

theorem stripTok_of_not_hasTok (p : Char) (ps : List Char) (l : List Char)
    (h : hasTok p ps l = false) : stripTok p ps l = l :=
  stripTokFuel_of_not_hasTok p ps l.length l h

/-- C1: for every sequence of price observations, a symbol's status only moves
forward along PENDING → ENTERED → EXITED_*, never regressing; once the status
is an EXITED_* value, a further call to process_symbol leaves the stored state
(status, entry_time, exit_time, exit_price) untouched and publishes a record
whose P&L figures are computed from the frozen exit_price, not from the fresh
ltp. -/
theorem c1_status_monotone_exit_frozen (sig : Signal) (obs : List (ℚ × Nat))
    (fetch : String → Option ℚ) (ts : List (String × TradeState)) (now : Nat) (ltp p : ℚ) :
    (∀ st : TradeState,
      statusLe st.status (applyObs st sig.entry sig.target sig.stoploss obs).status = true)
    ∧ (∀ st : TradeState, st.status.isExited = true →
        applyObs st sig.entry sig.target sig.stoploss obs = st)
    ∧ (∀ st : TradeState,
        fetch (normalize_symbol sig.symbol) = some ltp →
        getKey (normalize_symbol sig.symbol) ts = some st →
        st.status.isExited = true →
        st.exit_price = some p →
        getKey (normalize_symbol sig.symbol) (processSymbol fetch now ts sig).1 = some st
        ∧ (processSymbol fetch now ts sig).2
            = some (mkRecord sig (normalize_symbol sig.symbol) ltp st now)
        ∧ (mkRecord sig (normalize_symbol sig.symbol) ltp st now).status = st.status
        ∧ (mkRecord sig (normalize_symbol sig.symbol) ltp st now).exit_time = st.exit_time
        ∧ (mkRecord sig (normalize_symbol sig.symbol) ltp st now).exit_price = some p
        ∧ (mkRecord sig (normalize_symbol sig.symbol) ltp st now).pnl_pct
            = round2 (round2 (p - sig.entry) / sig.entry * 100)
        ∧ (mkRecord sig (normalize_symbol sig.symbol) ltp st now).pnl_capital
            = round2 (round2 (p - sig.entry) * sig.qty)
        ∧ (mkRecord sig (normalize_symbol sig.symbol) ltp st now).pnl_margin
            = round2 (round2 (p - sig.entry) * sig.qty)) := by
  refine ⟨applyObs_status_mono sig.entry sig.target sig.stoploss obs,
    fun st h => applyObs_exited st sig.entry sig.target sig.stoploss obs h, ?_⟩
  intro st hf hget hex hp
  have habs : transition st ltp sig.entry sig.target sig.stoploss now = st :=
    transition_exited st ltp sig.entry sig.target sig.stoploss now hex
  have hps := processSymbol_of_fetch_some fetch now ts sig ltp hf
  rw [hget] at hps
  simp only [Option.getD_some, habs] at hps
  refine ⟨?_, ?_, rfl, rfl, hp, ?_, ?_, ?_⟩
  · rw [hps]; exact getKey_setKey_self _ _ _
  · rw [hps]
  · simp [mkRecord, hex, hp]
  · simp [mkRecord, hex, hp]
  · simp [mkRecord, hex, hp]

/-- C1 witness: a concrete exited state is left untouched by process_symbol and
its published record is the one built from the frozen exit price. -/
theorem c1_witness :
    getKey (normalize_symbol "TCS")
        (processSymbol (fun _ => some (115 : ℚ)) 7 [("TCS", sampleExitedState)] sampleSignal).1
      = some sampleExitedState
    ∧ (processSymbol (fun _ => some (115 : ℚ)) 7 [("TCS", sampleExitedState)] sampleSignal).2
      = some (mkRecord sampleSignal (normalize_symbol "TCS") 115 sampleExitedState 7) := by
  have h := (c1_status_monotone_exit_frozen sampleSignal [] (fun _ => some 115)
      [("TCS", sampleExitedState)] 7 115 110).2.2 sampleExitedState rfl (by decide) rfl rfl
  exact ⟨h.1, h.2.1⟩

/-- C2 counterexample: from PENDING with price 115, entry 100, target 110,
stoploss 90, the first application enters and the second application of the
very same price exits at target, so applying twice differs from applying
once. -/
theorem c2_counterexample :
    transition (transition initState 115 100 110 90 0) 115 100 110 90 0
      ≠ transition initState 115 100 110 90 0 := by
  decide

/-- C2 amended: the transition step is idempotent for every state except a
PENDING state whose price meets the entry condition and simultaneously already
meets the target or stoploss condition; in that single case the second
application performs one further transition (ENTERED → EXITED_*). -/
theorem c2_amended (st : TradeState) (ltp entry target stoploss : ℚ) (n1 n2 : Nat)
    (h : st.status = .PENDING → ltp ≥ entry → ltp < target ∧ stoploss < ltp) :
    transition (transition st ltp entry target stoploss n1) ltp entry target stoploss n2
      = transition st ltp entry target stoploss n1 := by
  obtain ⟨s, et, xt, xp⟩ := st
  cases s with
  | PENDING =>
    by_cases he : ltp ≥ entry
    · obtain ⟨h1, h2⟩ := h rfl he
      simp [transition, he, not_le.mpr h1, not_le.mpr h2]
    · simp [transition, he]
  | ENTERED =>
    by_cases ht : ltp ≥ target
    · simp only [transition]
      simp [ht, Status.isExited]
    · by_cases hs : ltp ≤ stoploss
      · simp [transition, ht, hs, Status.isExited]
      · simp [transition, ht, hs]
  | EXITED_TARGET => simp [transition]
  | EXITED_SL => simp [transition]

/-- C2 amended witness: a price that only satisfies the entry condition is
idempotent from PENDING. -/
theorem c2_amended_witness :
    transition (transition initState 105 100 110 90 0) 105 100 110 90 1
      = transition initState 105 100 110 90 0 :=
  c2_amended initState 105 100 110 90 0 1 (fun _ _ => by constructor <;> decide)

/-- C3: from ENTERED, when the price satisfies both exit conditions at once,
the target arm is evaluated first, so the state exits at target with
exit_price frozen to the target, never at stoploss. -/
theorem c3_tie_break_target (st : TradeState) (ltp entry target stoploss : ℚ) (now : Nat)
    (hst : st.status = .ENTERED) (ht : ltp ≥ target) (_hs : ltp ≤ stoploss) :
    (transition st ltp entry target stoploss now).status = .EXITED_TARGET
    ∧ (transition st ltp entry target stoploss now).exit_price = some target := by
  simp [transition, hst, ht]

/-- C3 witness: the spec's degenerate example entry 100, target 110,
stoploss 120, price 115. -/
theorem c3_tie_break_target_witness :
    (transition sampleEnteredState 115 100 110 120 1).status = .EXITED_TARGET
    ∧ (transition sampleEnteredState 115 100 110 120 1).exit_price = some 110 :=
  c3_tie_break_target sampleEnteredState 115 100 110 120 1 rfl (by decide) (by decide)

/-- C4 counterexample: normalization is not idempotent; a lowercase spelling
of an exchange token survives one pass (only uppercased) and is stripped by a
second pass. -/
theorem c4_counterexample :
    normalize_symbol (normalize_symbol "nse:tcs") ≠ normalize_symbol "nse:tcs" := by
  decide

/-- C4 amended: normalization is deterministic, and it fixes every string
already in normal form (no occurrence of the tokens NSE:, .NS, -EQ, no
surrounding whitespace, already uppercase); it is not idempotent in general,
since one pass can uppercase a lowercase token spelling, or re-create a token
by concatenation, leaving a string the next pass strips further. -/
theorem c4_amended (s : String) (h : isNormal s = true) : normalize_symbol s = s := by
  simp only [isNormal, Bool.and_eq_true, Bool.not_eq_true', decide_eq_true_eq] at h
  obtain ⟨⟨⟨⟨h1, h2⟩, h3⟩, h4⟩, h5⟩ := h
  unfold normalize_symbol
  rw [stripTok_of_not_hasTok _ _ _ h1, stripTok_of_not_hasTok _ _ _ h2,
    stripTok_of_not_hasTok _ _ _ h3, h4, h5]

/-- C4 amended witness: a plain uppercase symbol is a fixed point. -/
theorem c4_amended_witness : isNormal "TCS" = true ∧ normalize_symbol "TCS" = "TCS" :=
  ⟨by decide, c4_amended "TCS" (by decide)⟩

/-- C5: a monitor cycle that observes the market as closed clears both shared
tables entirely, whatever they contained. -/
theorem c5_market_closed_clears (sigs : List Signal) (fetch : String → Option ℚ)
    (now : Nat) (t : Tables) :
    (monitorCycle false sigs fetch now t).live_table = []
    ∧ (monitorCycle false sigs fetch now t).trade_state = [] :=
  ⟨rfl, rfl⟩

theorem runSignals_cons (fetch : String → Option ℚ) (now : Nat) (t : Tables)
    (hd : Signal) (rest : List Signal) :
    runSignals fetch now t (hd :: rest) = runSignals fetch now (stepSignal fetch now t hd) rest := rfl

theorem stepSignal_of_fetch_none (fetch : String → Option ℚ) (now : Nat) (t : Tables)
    (sig : Signal) (h : fetch (normalize_symbol sig.symbol) = none) :
    stepSignal fetch now t sig = t := by
  simp [stepSignal, processSymbol_of_fetch_none fetch now t.trade_state sig h]

theorem stepSignal_of_fetch_some (fetch : String → Option ℚ) (now : Nat) (t : Tables)
    (sig : Signal) (ltp : ℚ) (h : fetch (normalize_symbol sig.symbol) = some ltp) :
    stepSignal fetch now t sig =
      { live_table := setKey (normalize_symbol sig.symbol)
          (mkRecord sig (normalize_symbol sig.symbol) ltp
            (transition ((getKey (normalize_symbol sig.symbol) t.trade_state).getD initState)
              ltp sig.entry sig.target sig.stoploss now) now) t.live_table
        trade_state := setKey (normalize_symbol sig.symbol)
          (transition ((getKey (normalize_symbol sig.symbol) t.trade_state).getD initState)
            ltp sig.entry sig.target sig.stoploss now) t.trade_state } := by
  simp [stepSignal, processSymbol_of_fetch_some fetch now t.trade_state sig ltp h, mkRecord_symbol]

/-- C6: with pairwise distinct normalized symbols, a cycle publishes an
updated record for every signal whose fetch succeeded, and leaves the
snapshot entry of every signal whose fetch failed exactly as it was before
the cycle; no per-symbol failure disturbs a sibling's published record. -/
theorem c6_per_symbol_isolation (fetch : String → Option ℚ) (now : Nat) :
    ∀ (sigs : List Signal) (t : Tables),
      (sigs.map fun s => normalize_symbol s.symbol).Nodup →
      ∀ sig ∈ sigs,
        (fetch (normalize_symbol sig.symbol) = none →
          getKey (normalize_symbol sig.symbol) (runSignals fetch now t sigs).live_table
            = getKey (normalize_symbol sig.symbol) t.live_table)
        ∧ (∀ ltp : ℚ, fetch (normalize_symbol sig.symbol) = some ltp →
          getKey (normalize_symbol sig.symbol) (runSignals fetch now t sigs).live_table
            = (processSymbol fetch now t.trade_state sig).2) := by
  intro sigs
  induction sigs with
  | nil => intro t _ sig hmem; cases hmem
  | cons hd rest ih =>
    intro t hnodup sig hmem
    rw [List.map_cons, List.nodup_cons] at hnodup
    obtain ⟨hhd_notin, hnodup'⟩ := hnodup
    have hhd_ne : ∀ s ∈ rest, normalize_symbol s.symbol ≠ normalize_symbol hd.symbol := by
      intro s hs heq2
      exact hhd_notin (List.mem_map.mpr ⟨s, hs, heq2⟩)
    rcases List.mem_cons.mp hmem with heq | hmem'
    · subst heq
      have hrest_ne : ∀ s ∈ rest, normalize_symbol s.symbol ≠ normalize_symbol sig.symbol :=
        hhd_ne
      constructor
      · intro hf
        rw [runSignals_cons,
          (runSignals_getKey_ne fetch now (normalize_symbol sig.symbol) rest
            (stepSignal fetch now t sig) hrest_ne).1,
          stepSignal_of_fetch_none fetch now t sig hf]
      · intro ltp hf
        rw [runSignals_cons,
          (runSignals_getKey_ne fetch now (normalize_symbol sig.symbol) rest
            (stepSignal fetch now t sig) hrest_ne).1,
          stepSignal_of_fetch_some fetch now t sig ltp hf,
          processSymbol_of_fetch_some fetch now t.trade_state sig ltp hf]
        exact getKey_setKey_self _ _ _
    · have hne : normalize_symbol hd.symbol ≠ normalize_symbol sig.symbol :=
        Ne.symm (hhd_ne sig hmem')
      have hstep := stepSignal_getKey_ne fetch now t hd (normalize_symbol sig.symbol) hne
      have IH := ih (stepSignal fetch now t hd) hnodup' sig hmem'
      constructor
      · intro hf
        rw [runSignals_cons, IH.1 hf, hstep.1]
      · intro ltp hf
        rw [runSignals_cons, IH.2 ltp hf]
        exact processSymbol_snd_congr fetch now _ _ sig hstep.2

/-- C6 witness: with two symbols, AAA failing and BBB succeeding, the cycle
leaves AAA's (absent) snapshot entry alone and publishes BBB's record. -/
theorem c6_witness :
    (getKey (normalize_symbol "AAA")
        (runSignals (fun s => if s = "BBB" then some 50 else none) 9
          { live_table := [], trade_state := [] }
          [{ symbol := "AAA", entry := 10, target := 12, stoploss := 8, qty := 1 },
           { symbol := "BBB", entry := 20, target := 25, stoploss := 15, qty := 2 }]).live_table
      = getKey (normalize_symbol "AAA") (Tables.mk [] []).live_table)
    ∧ (getKey (normalize_symbol "BBB")
        (runSignals (fun s => if s = "BBB" then some 50 else none) 9
          { live_table := [], trade_state := [] }
          [{ symbol := "AAA", entry := 10, target := 12, stoploss := 8, qty := 1 },
           { symbol := "BBB", entry := 20, target := 25, stoploss := 15, qty := 2 }]).live_table
      = (processSymbol (fun s => if s = "BBB" then some 50 else none) 9 []
          { symbol := "BBB", entry := 20, target := 25, stoploss := 15, qty := 2 }).2) := by
  have hA := (c6_per_symbol_isolation (fun s => if s = "BBB" then some 50 else none) 9
      [{ symbol := "AAA", entry := 10, target := 12, stoploss := 8, qty := 1 },
       { symbol := "BBB", entry := 20, target := 25, stoploss := 15, qty := 2 }]
      { live_table := [], trade_state := [] } (by decide)
      { symbol := "AAA", entry := 10, target := 12, stoploss := 8, qty := 1 } (by simp)).1
    (by decide)
  have hB := ((c6_per_symbol_isolation (fun s => if s = "BBB" then some 50 else none) 9
      [{ symbol := "AAA", entry := 10, target := 12, stoploss := 8, qty := 1 },
       { symbol := "BBB", entry := 20, target := 25, stoploss := 15, qty := 2 }]
      { live_table := [], trade_state := [] } (by decide)
      { symbol := "BBB", entry := 20, target := 25, stoploss := 15, qty := 2 } (by simp)).2)
    50 (by decide)
  exact ⟨hA, hB⟩

theorem ediv_one_self (m : ℤ) : Int.ediv m 1 = m := by
  cases m <;> simp [Int.ediv, Nat.div_one]

theorem roundHalfEvenInt_intCast (m : ℤ) : roundHalfEvenInt ((m : ℚ)) = m := by
  unfold roundHalfEvenInt
  simp only [Rat.num_intCast, Rat.den_intCast, Nat.cast_one, ediv_one_self]
  split_ifs <;> omega

theorem round2_intCast (m : ℤ) : round2 ((m : ℚ)) = (m : ℚ) := by
  unfold round2
  have h : (m : ℚ) * 100 = ((m * 100 : ℤ) : ℚ) := by push_cast; ring
  rw [h, roundHalfEvenInt_intCast]
  push_cast
  rw [mul_div_assoc]
  norm_num

/-- C7: a signal with entry 100 and quantity 50 in status ENTERED observed at
price 110 publishes pnl_pct 10.00, pnl_capital 500.00, capital_used 5000.00
and, with margin divisor 5, margin_required 1000.00. -/
theorem c7_pnl_arithmetic :
    (processSymbol (fun _ => some 110) 5 [("TCS", sampleEnteredState)] c7Signal).2
      = some c7ExpectedRecord := by
  have hfetch : (fun _ : String => some (110 : ℚ)) (normalize_symbol c7Signal.symbol)
      = some 110 := rfl
  rw [processSymbol_of_fetch_some _ _ _ _ 110 hfetch]
  have hget : getKey (normalize_symbol c7Signal.symbol) [("TCS", sampleEnteredState)]
      = some sampleEnteredState := by decide
  rw [hget]
  simp only [Option.getD_some]
  have htr : transition sampleEnteredState 110 c7Signal.entry c7Signal.target
      c7Signal.stoploss 5 = sampleEnteredState := by decide
  rw [htr]
  have hns : normalize_symbol c7Signal.symbol = "TCS" := by decide
  rw [hns]
  have e1 : round2 ((110 : ℚ) - 100) = 10 := by
    rw [show ((110 : ℚ) - 100) = ((10 : ℤ) : ℚ) by norm_num, round2_intCast]; norm_num
  have e2 : round2 ((10 : ℚ) / 100 * 100) = 10 := by
    rw [show ((10 : ℚ) / 100 * 100) = ((10 : ℤ) : ℚ) by norm_num, round2_intCast]; norm_num
  have e3 : round2 ((100 : ℚ) * 50) = 5000 := by
    rw [show ((100 : ℚ) * 50) = ((5000 : ℤ) : ℚ) by norm_num, round2_intCast]; norm_num
  have e4 : round2 ((10 : ℚ) * 50) = 500 := by
    rw [show ((10 : ℚ) * 50) = ((500 : ℤ) : ℚ) by norm_num, round2_intCast]; norm_num
  have e5 : round2 ((5000 : ℚ) / MARGIN) = 1000 := by
    rw [show ((5000 : ℚ) / MARGIN) = ((1000 : ℤ) : ℚ) by norm_num [MARGIN], round2_intCast]
    norm_num
  have e6 : round2 ((10 : ℚ)) = 10 := by
    rw [show ((10 : ℚ)) = ((10 : ℤ) : ℚ) by norm_num, round2_intCast]
  simp [mkRecord, c7Signal, sampleEnteredState, c7ExpectedRecord, Status.isExited,
    e1, e2, e3, e4, e5, e6]

theorem fetchGo_attempts_le (oracle : Nat → AttemptResult) :
    ∀ (fuel attempt sleeps : Nat), attempt + fuel = MAX_RETRIES + 1 →
      (fetchGo oracle fuel attempt sleeps).2.1 ≤ MAX_RETRIES := by
  intro fuel
  induction fuel with
  | zero => intro a s _; simp [fetchGo]
  | succ n ih =>
    intro a s h
    have ha : a ≤ MAX_RETRIES := by omega
    cases ho : oracle a with
    | timeout => simpa [fetchGo, ho] using ih (a + 1) (s + BACKOFF_MS) (by omega)
    | otherError => simpa [fetchGo, ho] using ih (a + 1) (s + BACKOFF_MS) (by omega)
    | httpError => simpa [fetchGo, ho] using ha
    | ok candles =>
      cases hl : candles.getLast? with
      | none => simpa [fetchGo, ho, hl] using ha
      | some c =>
        cases c with
        | none => simpa [fetchGo, ho, hl] using ha
        | some v =>
          by_cases hv : v ≤ 0
          · simpa [fetchGo, ho, hl, hv] using ha
          · simpa [fetchGo, ho, hl, hv] using ha

/-- C8 counterexample: the fetcher does not retry only transport/timeout
failures. An attempt whose HTTP exchange succeeds but whose body handling
raises a generic error (the source's catch-all except arm, e.g. a JSON decode
error) is retried too: with such a failure on attempt 1 and a good price on
attempt 2, the run sleeps one backoff, makes a second attempt and returns its
price, instead of stopping after the non-transport failure. -/
theorem c8_counterexample :
    (fun a => if a = 1 then AttemptResult.otherError else AttemptResult.ok [some 100]) 1
      = AttemptResult.otherError
    ∧ fetch_ltp_with_retry
        (fun a => if a = 1 then AttemptResult.otherError else AttemptResult.ok [some 100])
      = (some (round2 100), 2, BACKOFF_MS) :=
  ⟨rfl, rfl⟩

/-- C8 amended: the fetcher makes at most MAX_RETRIES = 3 attempts; it sleeps
the fixed 400ms backoff around each retried failure, retrying timeouts and
any other unexpected in-attempt failure (the catch-all except arm, e.g. a
JSON decode error) — not only transport/timeout failures; an HTTP error
status is not retried; a successful response whose candle list is empty fails
immediately on the first attempt with no retry and no backoff, as do a null
close and a non-positive close; and when every attempt fails transiently it
exhausts exactly MAX_RETRIES attempts and returns the typed failure value
none instead of raising. -/
theorem c8_fetch_retry_policy (oracle : Nat → AttemptResult) :
    (fetch_ltp_with_retry oracle).2.1 ≤ MAX_RETRIES
    ∧ (oracle 1 = .ok [] → fetch_ltp_with_retry oracle = (none, 1, 0))
    ∧ (oracle 1 = .httpError → fetch_ltp_with_retry oracle = (none, 1, 0))
    ∧ (∀ v : ℚ, v ≤ 0 → oracle 1 = .ok [some v] → fetch_ltp_with_retry oracle = (none, 1, 0))
    ∧ (oracle 1 = .ok [none] → fetch_ltp_with_retry oracle = (none, 1, 0))
    ∧ (oracle 1 = .timeout ∨ oracle 1 = .otherError →
        fetch_ltp_with_retry oracle = fetchGo oracle (MAX_RETRIES - 1) 2 BACKOFF_MS)
    ∧ ((∀ a : Nat, 1 ≤ a → a ≤ MAX_RETRIES → oracle a = .timeout ∨ oracle a = .otherError) →
        fetch_ltp_with_retry oracle = (none, MAX_RETRIES, MAX_RETRIES * BACKOFF_MS)) := by
  refine ⟨fetchGo_attempts_le oracle MAX_RETRIES 1 0 rfl, ?_, ?_, ?_, ?_, ?_, ?_⟩
  · intro h
    simp [fetch_ltp_with_retry, MAX_RETRIES, fetchGo, h]
  · intro h
    simp [fetch_ltp_with_retry, MAX_RETRIES, fetchGo, h]
  · intro v hv h
    simp [fetch_ltp_with_retry, MAX_RETRIES, fetchGo, h, hv]
  · intro h
    simp [fetch_ltp_with_retry, MAX_RETRIES, fetchGo, h]
  · intro h
    rcases h with h | h <;>
      simp [fetch_ltp_with_retry, MAX_RETRIES, BACKOFF_MS, fetchGo, h]
  · intro hret
    rcases hret 1 (by decide) (by decide) with h1 | h1 <;>
      rcases hret 2 (by decide) (by decide) with h2 | h2 <;>
        rcases hret 3 (by decide) (by decide) with h3 | h3 <;>
          simp [fetch_ltp_with_retry, MAX_RETRIES, BACKOFF_MS, fetchGo, h1, h2, h3]

/-- C8 witness: an oracle that always times out exhausts the three attempts
and returns the failure value with three backoffs slept. -/
theorem c8_fetch_retry_policy_witness :
    fetch_ltp_with_retry (fun _ => AttemptResult.timeout)
      = (none, MAX_RETRIES, MAX_RETRIES * BACKOFF_MS) :=
  (c8_fetch_retry_policy (fun _ => AttemptResult.timeout)).2.2.2.2.2.2
    (fun _ _ _ => Or.inl rfl)

/-- C9 counterexample: serving the snapshot read while the market is closed
clears both shared tables, so a read can mutate shared state. -/
theorem c9_counterexample :
    (api_monitor false true
        { live_table := [("TCS", sampleRecord)], trade_state := [("TCS", sampleExitedState)] }).1
      ≠ { live_table := [("TCS", sampleRecord)], trade_state := [("TCS", sampleExitedState)] } := by
  simp [api_monitor, clear_live_data]

/-- C9 amended: when the market is open and today's signals are present, a
snapshot read leaves both shared tables unchanged; but when the market is
closed, or the signals document is absent, the read handler itself clears
both tables, so the monitor loop is not the only writer. -/
theorem c9_amended_read_mutation (sp : Bool) (t : Tables) :
    (api_monitor true true t).1 = t
    ∧ (api_monitor false sp t).1 = { live_table := [], trade_state := [] }
    ∧ (api_monitor true false t).1 = { live_table := [], trade_state := [] } := by
  refine ⟨?_, rfl, rfl⟩
  by_cases h : t.live_table = [] <;> simp [api_monitor, h, clear_live_data]

/-- C10: one call to the transition advances the status by at most one step:
the arms are mutually exclusive, and from PENDING the result is PENDING or
ENTERED — never an EXITED_* state — even when the price already satisfies the
target or stoploss condition as well. -/
theorem c10_single_observation_single_step (st : TradeState)
    (ltp entry target stoploss : ℚ) (now : Nat) :
    (transition st ltp entry target stoploss now).status.rank ≤ st.status.rank + 1
    ∧ (st.status = .PENDING →
        (transition st ltp entry target stoploss now).status = .PENDING
        ∨ (transition st ltp entry target stoploss now).status = .ENTERED)
    ∧ (st.status = .PENDING → ltp ≥ entry →
        (transition st ltp entry target stoploss now).status = .ENTERED) := by
  obtain ⟨s, et, xt, xp⟩ := st
  cases s with
  | PENDING =>
    by_cases he : ltp ≥ entry
    · refine ⟨?_, fun _ => Or.inr ?_, fun _ _ => ?_⟩ <;> simp [transition, he, Status.rank]
    · refine ⟨?_, fun _ => Or.inl ?_, fun _ hge => absurd hge he⟩ <;>
        simp [transition, he, Status.rank]
  | ENTERED =>
    refine ⟨?_, fun hp => by simp at hp, fun hp => by simp at hp⟩
    by_cases ht : ltp ≥ target
    · simp [transition, ht, Status.rank]
    · by_cases hsl : ltp ≤ stoploss
      · simp [transition, ht, hsl, Status.rank]
      · simp [transition, ht, hsl, Status.rank]
  | EXITED_TARGET =>
    refine ⟨?_, fun hp => by simp at hp, fun hp => by simp at hp⟩
    simp [transition, Status.rank]
  | EXITED_SL =>
    refine ⟨?_, fun hp => by simp at hp, fun hp => by simp at hp⟩
    simp [transition, Status.rank]

/-- C10 witness: from PENDING at price 115 with entry 100, target 110,
stoploss 90 the step lands on ENTERED, not on an EXITED_* state. -/
theorem c10_witness :
    (transition initState 115 100 110 90 0).status = .ENTERED :=
  (c10_single_observation_single_step initState 115 100 110 90 0).2.2 rfl (by decide)
